import Mathlib

/-!
Shallow embedding of the `errors` package (errors with stack traces,
a copy of github.com/go-errors/errors).

Modelling conventions:
* Go heap pointers to `CommonError` are indices into `St.heap`; a typed
  nil `*CommonError` is the separate value `CPtr` `none` / `ErrV.cerrNil`.
* A Go `error` interface value is `ErrV`: `instNil` is the nil interface,
  `plain id msg ty` is an ordinary error instance (identity `id`, message
  `msg`, dynamic type name `ty`), `panicV msg` is an `uncaughtPanic`
  value, `cerr r` a non-nil `*CommonError`, `cerrNil` a typed-nil one.
* An `interface\x7b\x7d` argument is `GoVal`: nil, an error value, or a
  non-error value whose default `%v` rendering is the carried string.
* Run-time panics (nil-pointer dereference, method call on a nil
  interface) are modelled as `none` of an `Option` result.
* `runtime.Callers(2+skip, buf)` is modelled by a parameter
  `cs : List Nat`, the program counters of the caller stack as seen by
  `runtime.Callers(2, buf)` at the capture site, so the capture stores
  `(cs.drop skip).take MaxStackDepth`.
-/

namespace GoErrors

/-- The maximum number of stackframes on any error (a process-wide
mutable `var` in the source; operations take the current value as the
`md` parameter, and this is its default). -/
def MaxStackDepth : Nat := 50

/-- Modelled from the spec: the `StackFrame` record (source file missing
from `src/`): a resolved frame has file, line number, function name,
package name and the raw program counter. -/
structure StackFrame where
  File : String
  LineNumber : Nat
  Name : String
  Package : String
  ProgramCounter : Nat
deriving Repr, DecidableEq

/-- Modelled from the spec: a resolved frame renders as a two-line block,
a function/location identifier line, then the file-and-line-number line
indented. -/
def StackFrame.render (f : StackFrame) : String :=
  f.Package ++ "." ++ f.Name ++ "\n" ++ "\t" ++ f.File ++ ":" ++
    toString f.LineNumber ++ "\n"

/-- A Go `error` interface value as far as this library inspects it. -/
inductive ErrV where
  /-- the nil `error` interface value -/
  | instNil : ErrV
  /-- an ordinary error instance: identity, message, dynamic type name -/
  | plain (id : Nat) (msg : String) (ty : String) : ErrV
  /-- Modelled from the spec: an `uncaughtPanic` value (source file
  missing from `src/`), carrying the recovered panic's message; it is a
  struct value, so Go `==` compares messages. -/
  | panicV (msg : String) : ErrV
  /-- a non-nil `*CommonError`, as a heap index -/
  | cerr (r : Nat) : ErrV
  /-- a typed-nil `*CommonError` stored in an interface -/
  | cerrNil : ErrV
deriving Repr, DecidableEq

/-- Go `==` on two `error` interface values (identity for pointer-typed
errors, value equality for the `uncaughtPanic` struct, nil-interface
versus typed-nil distinction kept). -/
def ErrV.goEq : ErrV → ErrV → Bool
  | .instNil, .instNil => true
  | .plain i _ _, .plain j _ _ => i == j
  | .panicV m, .panicV m' => m == m'
  | .cerr r, .cerr r' => r == r'
  | .cerrNil, .cerrNil => true
  | _, _ => false

/-- A Go `interface\x7b\x7d` argument: nil, an error, or a non-error
value carrying its default `%v` rendering. -/
inductive GoVal where
  | goNil : GoVal
  | errVal (e : ErrV) : GoVal
  | other (s : String) : GoVal
deriving Repr, DecidableEq

/-- The `CommonError` struct: underlying error, captured program
counters, lazily resolved frames (`none` = Go nil slice), prefix. -/
structure CommonError where
  Err : ErrV
  stack : List Nat
  frames : Option (List StackFrame)
  pfx : String
deriving Repr, DecidableEq

/-- Program state: the heap of `CommonError` cells (a pointer is an
index) and a counter supplying fresh identities for errors allocated by
`fmt.Errorf`. -/
structure St where
  heap : List CommonError
  nextId : Nat
deriving Repr, DecidableEq

/-- Allocate a fresh error instance, as `fmt.Errorf` does (dynamic type
`*errors.errorString`). -/
def St.freshErr (st : St) (msg : String) : ErrV × St :=
  (.plain st.nextId msg "*errors.errorString", { st with nextId := st.nextId + 1 })

/-- Allocate a new `CommonError` cell, returning its pointer. -/
def St.alloc (st : St) (c : CommonError) : Nat × St :=
  (st.heap.length, { st with heap := st.heap ++ [c] })

/-- Overwrite the cell at `r`. -/
def St.set (st : St) (r : Nat) (c : CommonError) : St :=
  { st with heap := st.heap.set r c }

/-- A `*CommonError`-typed Go value: `some r` is a live pointer, `none`
is the nil pointer. -/
def CPtr := Option Nat
deriving DecidableEq, Repr

/-- The `error` interface value a `*CommonError` converts to. -/
def CPtr.toErrV : CPtr → ErrV
  | some r => .cerr r
  | none => .cerrNil

/-- `New` makes an Error from the given value: an error is used
directly, anything else goes through `fmt.Errorf("%v", e)`; then the
caller stack is captured up to `md` frames.  Returns the pointer to the
new cell. -/
def New (md : Nat) (cs : List Nat) (e : GoVal) (st : St) : Nat × St :=
  let p : ErrV × St :=
    match e with
    | .errVal ev => (ev, st)
    | .goNil => st.freshErr "<nil>"
    | .other s => st.freshErr s
  p.2.alloc { Err := p.1, stack := cs.take md, frames := none, pfx := "" }

/-- `Wrap` makes an Error from the given value; a value that is already
a `*CommonError` (nil included) is returned directly, otherwise it is
wrapped like `New`, with `skip` extra frames dropped from the capture. -/
def Wrap (md skip : Nat) (cs : List Nat) (e : GoVal) (st : St) : CPtr × St :=
  match e with
  | .errVal (.cerr r) => (some r, st)
  | .errVal .cerrNil => (none, st)
  | .errVal ev =>
      let q := st.alloc { Err := ev, stack := (cs.drop skip).take md, frames := none, pfx := "" }
      (some q.1, q.2)
  | .goNil =>
      let p := st.freshErr "<nil>"
      let q := p.2.alloc { Err := p.1, stack := (cs.drop skip).take md, frames := none, pfx := "" }
      (some q.1, q.2)
  | .other s =>
      let p := st.freshErr s
      let q := p.2.alloc { Err := p.1, stack := (cs.drop skip).take md, frames := none, pfx := "" }
      (some q.1, q.2)

/-- `Unwrap`: a `*CommonError` yields its `Err` field (`none` models the
nil-pointer dereference panic on a typed-nil `*CommonError`), a plain
error is returned unchanged, the nil interface falls through to
`fmt.Errorf("%v", e)`. -/
def Unwrap (e : ErrV) (st : St) : Option (ErrV × St) :=
  match e with
  | .cerr r => (st.heap[r]?).map fun c => (c.Err, st)
  | .cerrNil => none
  | .instNil =>
      let p := st.freshErr "<nil>"
      some (p.1, p.2)
  | ev => some (ev, st)

/-- `WrapPrefix`: `Wrap`, then compose the prefix in place on the
returned cell (`fmt.Sprintf("%s: %s", prefix, err.prefix)` when one is
already set).  `none` models the panic of reading `err.prefix` through
the nil pointer `Wrap` returns for a typed-nil `*CommonError`. -/
def WrapPrefix (md skip : Nat) (cs : List Nat) (e : GoVal) (p : String) (st : St) :
    Option (CPtr × St) :=
  let w := Wrap md skip cs e st
  match w.1 with
  | none => none
  | some r =>
      (w.2.heap[r]?).map fun c =>
        let c' :=
          if c.pfx ≠ "" then { c with pfx := p ++ ": " ++ c.pfx }
          else { c with pfx := p }
        (some r, w.2.set r c')

/-- An argument passed to `fmt.Errorf`: an integer or a string (the
argument shapes this library's spec examples exercise). -/
inductive FmtArg where
  | intA (n : Int)
  | strA (s : String)
deriving Repr, DecidableEq

/-- Default `%v` rendering of a format argument. -/
def FmtArg.vFmt : FmtArg → String
  | .intA n => toString n
  | .strA s => s

/-- Model of Go's `fmt.Sprintf` directive scan, covering the `%d`, `%s`,
`%v` and `%%` directives over the argument shapes above; a directive
whose argument list is exhausted renders Go's `(MISSING)` marker. -/
def sprintfAux : List Char → List FmtArg → List Char
  | '%' :: '%' :: rest, as => '%' :: sprintfAux rest as
  | '%' :: 'd' :: rest, .intA n :: as => (toString n).toList ++ sprintfAux rest as
  | '%' :: 'd' :: rest, .strA s :: as =>
      ("%!d(string=" ++ s ++ ")").toList ++ sprintfAux rest as
  | '%' :: 'd' :: rest, [] => "%!d(MISSING)".toList ++ sprintfAux rest []
  | '%' :: 's' :: rest, .strA s :: as => s.toList ++ sprintfAux rest as
  | '%' :: 's' :: rest, .intA n :: as =>
      ("%!s(int=" ++ toString n ++ ")").toList ++ sprintfAux rest as
  | '%' :: 's' :: rest, [] => "%!s(MISSING)".toList ++ sprintfAux rest []
  | '%' :: 'v' :: rest, a :: as => a.vFmt.toList ++ sprintfAux rest as
  | '%' :: 'v' :: rest, [] => "%!v(MISSING)".toList ++ sprintfAux rest []
  | c :: rest, as => c :: sprintfAux rest as
  | [], _ => []

/-- Model of `fmt.Sprintf`. -/
def fmtSprintf (f : String) (as : List FmtArg) : String :=
  String.mk (sprintfAux f.toList as)

/-- Model of `fmt.Errorf`: a freshly allocated error instance carrying
the formatted message. -/
def fmtErrorf (f : String) (as : List FmtArg) (st : St) : ErrV × St :=
  st.freshErr (fmtSprintf f as)

/-- `Errorf` creates a new error with the given message:
`Wrap(fmt.Errorf(format, a...), 1)`. -/
def Errorf (md : Nat) (cs : List Nat) (f : String) (as : List FmtArg) (st : St) :
    CPtr × St :=
  let q := fmtErrorf f as st
  Wrap md 1 cs (.errVal q.1) q.2

/-- `Is` detects whether two errors are equal: the same object, or one
contains the other's innermost error inside a `*CommonError`.  Fuel
bounds the recursion (the Go code recurses without bound); `none` models
either fuel exhaustion or the nil-pointer dereference `e.Err` on a
typed-nil `*CommonError`. -/
def IsF (h : List CommonError) : Nat → ErrV → ErrV → Option Bool
  | 0, _, _ => none
  | fuel + 1, e, orig =>
    if e.goEq orig then some true
    else
      match e with
      | .cerr r =>
          match h[r]? with
          | some c => IsF h fuel c.Err orig
          | none => none
      | .cerrNil => none
      | _ =>
          match orig with
          | .cerr r =>
              match h[r]? with
              | some c => IsF h fuel e c.Err
              | none => none
          | .cerrNil => none
          | _ => some false

/-- Follow the `Err` chain of an error value down to the first value
that is not a live `*CommonError` (its fully-unwrapped underlying
value), with fuel. -/
def unwrapAllF (h : List CommonError) : Nat → ErrV → Option ErrV
  | 0, e =>
    match e with
    | .cerr _ => none
    | e => some e
  | fuel + 1, e =>
    match e with
    | .cerr r =>
        match h[r]? with
        | some c => unwrapAllF h fuel c.Err
        | none => none
    | e => some e

/-- The message of an underlying error value, as `err.Err.Error()` sees
it: a nested `*CommonError` renders recursively with its own prefix;
`none` models the panic of calling `Error()` on a nil interface or a
typed-nil `*CommonError`.  Fuel bounds the nesting depth. -/
def errMsgF (h : List CommonError) : Nat → ErrV → Option String
  | _, .plain _ m _ => some m
  | _, .panicV m => some m
  | _, .instNil => none
  | _, .cerrNil => none
  | 0, .cerr _ => none
  | fuel + 1, .cerr r =>
      match h[r]? with
      | none => none
      | some c =>
          (errMsgF h fuel c.Err).map fun m =>
            if c.pfx = "" then m else c.pfx ++ ": " ++ m

/-- `(err *CommonError) Error()`: the underlying error's message,
prefixed with `prefix + ": "` when a prefix is set. -/
def CommonError.errorStr (h : List CommonError) (fuel : Nat) (c : CommonError) :
    Option String :=
  (errMsgF h fuel c.Err).map fun m =>
    if c.pfx = "" then m else c.pfx ++ ": " ++ m

/-- `(err *CommonError) StackFrames()`: resolve the captured program
counters on first call and cache the result; later calls return the
cache.  The frame resolver `res` (the missing `NewStackFrame`, modelled
from the spec) is a parameter, since it is a pure function of the
running binary.  Returns the frames and the possibly updated cell. -/
def CommonError.stackFrames (res : Nat → StackFrame) (c : CommonError) :
    List StackFrame × CommonError :=
  match c.frames with
  | some fs => (fs, c)
  | none => (c.stack.map res, { c with frames := some (c.stack.map res) })

/-- `(err *CommonError) Stack()`: the concatenation of the rendered
frame blocks. -/
def CommonError.stackStr (res : Nat → StackFrame) (c : CommonError) :
    String × CommonError :=
  let q := c.stackFrames res
  (String.join (q.1.map StackFrame.render), q.2)

/-- `(err *CommonError) ErrorStack()`: `Error() + "\n" + string(Stack())`. -/
def CommonError.errorStack (h : List CommonError) (fuel : Nat)
    (res : Nat → StackFrame) (c : CommonError) : Option (String × CommonError) :=
  match c.errorStr h fuel with
  | none => none
  | some m =>
      let q := c.stackStr res
      some (m ++ "\n" ++ q.1, q.2)

/-- `(err *CommonError) TypeName()`: the sentinel `"panic"` for an
`uncaughtPanic` underlying value, otherwise
`reflect.TypeOf(err.Err).String()`; `none` models the panic of calling
`String()` on the nil `reflect.Type` of a nil interface. -/
def CommonError.typeName (c : CommonError) : Option String :=
  match c.Err with
  | .panicV _ => some "panic"
  | .plain _ _ ty => some ty
  | .cerr _ => some "*errors.CommonError"
  | .cerrNil => some "*errors.CommonError"
  | .instNil => none

/- ### General helper lemmas -/

theorem ErrV.goEq_refl (e : ErrV) : e.goEq e = true := by
  cases e <;> simp [ErrV.goEq]

theorem getElem?_concat_lt {α : Type} (l : List α) (a : α) (i : Nat)
    (hi : i < l.length) : (l ++ [a])[i]? = l[i]? := by
  rw [List.getElem?_append]; simp [hi]

theorem concat_set_last {α : Type} (l : List α) (a b : α) :
    (l ++ [a]).set l.length b = l ++ [b] := by
  induction l with
  | nil => rfl
  | cons x xs ih => simp [List.set, ih]

theorem render_ne_empty (f : StackFrame) : f.render ≠ "" := by
  intro he
  have h2 := congrArg String.length he
  simp [StackFrame.render, String.length_append] at h2
  exact absurd h2.2 (by decide)

theorem take_ne_nil {α : Type} (l : List α) (n : Nat) (hl : l ≠ []) (hn : 0 < n) :
    l.take n ≠ [] := by
  cases l with
  | nil => exact absurd rfl hl
  | cons x xs =>
    cases n with
    | zero => exact absurd hn (by simp)
    | succ m => simp [List.take]

/-- `unwrapAllF` does nothing on a value that is not a live `*CommonError`. -/
theorem uw_noncerr (h : List CommonError) (f : Nat) (e : ErrV)
    (he : ∀ r, e ≠ .cerr r) : unwrapAllF h f e = some e := by
  cases f <;> cases e <;> simp [unwrapAllF] <;> exact absurd rfl (he _)

/-- `unwrapAllF` is stable under extra fuel. -/
theorem uw_mono (h : List CommonError) (f : Nat) (e : ErrV) (x : ErrV)
    (hu : unwrapAllF h f e = some x) : unwrapAllF h (f + 1) e = some x := by
  induction f generalizing e with
  | zero =>
    cases e <;> simp [unwrapAllF] at hu <;> simp [unwrapAllF, hu]
  | succ n ih =>
    have step : ∀ (m r : Nat),
        unwrapAllF h (m + 1) (.cerr r)
          = (match h[r]? with
             | some c => unwrapAllF h m c.Err
             | none => none) := fun _ _ => rfl
    cases e with
    | cerr r =>
      rw [step n r] at hu
      rw [step (n + 1) r]
      cases hr : h[r]? with
      | none => rw [hr] at hu; simp at hu
      | some c => rw [hr] at hu; exact ih _ hu
    | instNil => simpa [unwrapAllF] using hu
    | plain i m t => simpa [unwrapAllF] using hu
    | panicV m => simpa [unwrapAllF] using hu
    | cerrNil => simpa [unwrapAllF] using hu

theorem uw_le (h : List CommonError) (f g : Nat) (e : ErrV) (x : ErrV)
    (hfg : f ≤ g) (hu : unwrapAllF h f e = some x) :
    unwrapAllF h g e = some x := by
  induction g with
  | zero => cases Nat.le_zero.mp hfg; exact hu
  | succ n ih =>
    rcases Nat.lt_or_ge f (n + 1) with hlt | hge
    · exact uw_mono h n e x (ih (Nat.lt_succ_iff.mp hlt))
    · cases Nat.le_antisymm hfg hge; exact hu

/-- Two objects that are Go-equal have Go-equal fully-unwrapped values. -/
theorem goEq_uw (h : List CommonError) (u v x y : ErrV) (fu fv : Nat)
    (hq : u.goEq v = true) (hx : unwrapAllF h fu u = some x)
    (hy : unwrapAllF h fv v = some y) : x.goEq y = true := by
  cases u <;> cases v <;> simp [ErrV.goEq] at hq
  case instNil.instNil =>
    rw [uw_noncerr h fu _ (by intro r hr; cases hr)] at hx
    rw [uw_noncerr h fv _ (by intro r hr; cases hr)] at hy
    cases hx; cases hy; rfl
  case plain.plain i m t j m' t' =>
    rw [uw_noncerr h fu _ (by intro r hr; cases hr)] at hx
    rw [uw_noncerr h fv _ (by intro r hr; cases hr)] at hy
    cases hx; cases hy; simpa [ErrV.goEq] using hq
  case panicV.panicV m m' =>
    rw [uw_noncerr h fu _ (by intro r hr; cases hr)] at hx
    rw [uw_noncerr h fv _ (by intro r hr; cases hr)] at hy
    cases hx; cases hy; simpa [ErrV.goEq] using hq
  case cerr.cerr r r' =>
    cases hq
    have h1 : unwrapAllF h (max fu fv) (.cerr r) = some x :=
      uw_le h fu _ _ _ (Nat.le_max_left _ _) hx
    have h2 : unwrapAllF h (max fu fv) (.cerr r) = some y :=
      uw_le h fv _ _ _ (Nat.le_max_right _ _) hy
    rw [h1] at h2
    cases h2
    exact ErrV.goEq_refl x
  case cerrNil.cerrNil =>
    rw [uw_noncerr h fu _ (by intro r hr; cases hr)] at hx
    rw [uw_noncerr h fv _ (by intro r hr; cases hr)] at hy
    cases hx; cases hy; rfl


theorem uw_cerrNil (h : List CommonError) (f : Nat) (x : ErrV)
    (hx : unwrapAllF h f .cerrNil = some x) : x = .cerrNil := by
  cases f <;> simp [unwrapAllF] at hx <;> exact hx.symm

theorem isF_char (h : List CommonError) :
    ∀ (n f g : Nat) (e b x y : ErrV), f + g ≤ n →
      unwrapAllF h f e = some x → x ≠ .cerrNil →
      unwrapAllF h g b = some y → y ≠ .cerrNil →
      IsF h (f + g + 1) e b = some (e.goEq b || x.goEq y) := by
  intro n
  induction n with
  | zero =>
    intro f g e b x y hn hx hxn hy hyn
    have hf : f = 0 := by omega
    have hg : g = 0 := by omega
    subst hf; subst hg
    have hxe : x = e := by cases e <;> simp [unwrapAllF] at hx <;> exact hx.symm
    have hyb : y = b := by cases b <;> simp [unwrapAllF] at hy <;> exact hy.symm
    rw [hxe, hyb, Bool.or_self]
    by_cases hq : e.goEq b = true
    · simp [IsF, hq]
    · simp only [Bool.not_eq_true] at hq
      cases e with
      | cerr r => simp [unwrapAllF] at hx
      | cerrNil => exact absurd hxe hxn
      | instNil =>
        cases b with
        | cerr r => simp [unwrapAllF] at hy
        | cerrNil => exact absurd hyb hyn
        | instNil => simp [ErrV.goEq] at hq
        | plain i' m' t' => simp [IsF, hq]
        | panicV m' => simp [IsF, hq]
      | plain i m t =>
        cases b with
        | cerr r => simp [unwrapAllF] at hy
        | cerrNil => exact absurd hyb hyn
        | instNil => simp [IsF, hq]
        | plain i' m' t' => simp [IsF, hq]
        | panicV m' => simp [IsF, hq]
      | panicV m =>
        cases b with
        | cerr r => simp [unwrapAllF] at hy
        | cerrNil => exact absurd hyb hyn
        | instNil => simp [IsF, hq]
        | plain i' m' t' => simp [IsF, hq]
        | panicV m' => simp [IsF, hq]
  | succ n ih =>
    intro f g e b x y hn hx hxn hy hyn
    by_cases hq : e.goEq b = true
    · simp [IsF, hq]
    · simp only [Bool.not_eq_true] at hq
      cases e with
      | cerr r =>
        cases f with
        | zero => simp [unwrapAllF] at hx
        | succ f' =>
          cases hr : h[r]? with
          | none => simp [unwrapAllF, hr] at hx
          | some c =>
            have hx' : unwrapAllF h f' c.Err = some x := by
              simpa [unwrapAllF, hr] using hx
            have hrec := ih f' g c.Err b x y (by omega) hx' hxn hy hyn
            obtain ⟨F, hF⟩ : ∃ F, F = f' + g + 1 := ⟨_, rfl⟩
            rw [show f' + 1 + g + 1 = F + 1 by omega]
            rw [← hF] at hrec
            simp [IsF, hq, hr]
            rw [hrec]
            by_cases hcb : c.Err.goEq b = true
            · have hxy := goEq_uw h c.Err b x y f' g hcb hx' hy
              simp [hcb, hxy]
            · simp only [Bool.not_eq_true] at hcb
              simp [hcb]
      | cerrNil => exact absurd (uw_cerrNil h f x hx) hxn
      | instNil =>
        have hxe : x = .instNil := by
          cases f <;> simp [unwrapAllF] at hx <;> exact hx.symm
        subst hxe
        cases b with
        | cerr r =>
          cases g with
          | zero => simp [unwrapAllF] at hy
          | succ g' =>
            cases hr : h[r]? with
            | none => simp [unwrapAllF, hr] at hy
            | some c =>
              have hy' : unwrapAllF h g' c.Err = some y := by
                simpa [unwrapAllF, hr] using hy
              have hrec := ih f g' .instNil c.Err .instNil y (by omega)
                (uw_noncerr h f _ (by intro r' hr'; cases hr')) hxn hy' hyn
              obtain ⟨F, hF⟩ : ∃ F, F = f + g' + 1 := ⟨_, rfl⟩
              rw [show f + (g' + 1) + 1 = F + 1 by omega]
              rw [← hF] at hrec
              simp [IsF, hq, hr]
              rw [hrec]
              by_cases hcb : ErrV.instNil.goEq c.Err = true
              · have hxy := goEq_uw h .instNil c.Err .instNil y f g' hcb
                  (uw_noncerr h f _ (by intro r' hr'; cases hr')) hy'
                simp [hcb, hxy]
              · simp only [Bool.not_eq_true] at hcb
                simp [hcb]
        | cerrNil => exact absurd (uw_cerrNil h g y hy) hyn
        | instNil =>
          have hyb : y = .instNil := by
            cases g <;> simp [unwrapAllF] at hy <;> exact hy.symm
          subst hyb; simp [ErrV.goEq] at hq
        | plain i' m' t' =>
          have hyb : y = .plain i' m' t' := by
            cases g <;> simp [unwrapAllF] at hy <;> exact hy.symm
          subst hyb; simp [IsF, hq]
        | panicV m' =>
          have hyb : y = .panicV m' := by
            cases g <;> simp [unwrapAllF] at hy <;> exact hy.symm
          subst hyb; simp [IsF, hq]
      | plain i m t =>
        have hxe : x = .plain i m t := by
          cases f <;> simp [unwrapAllF] at hx <;> exact hx.symm
        subst hxe
        cases b with
        | cerr r =>
          cases g with
          | zero => simp [unwrapAllF] at hy
          | succ g' =>
            cases hr : h[r]? with
            | none => simp [unwrapAllF, hr] at hy
            | some c =>
              have hy' : unwrapAllF h g' c.Err = some y := by
                simpa [unwrapAllF, hr] using hy
              have hrec := ih f g' (.plain i m t) c.Err (.plain i m t) y (by omega)
                (uw_noncerr h f _ (by intro r' hr'; cases hr')) hxn hy' hyn
              obtain ⟨F, hF⟩ : ∃ F, F = f + g' + 1 := ⟨_, rfl⟩
              rw [show f + (g' + 1) + 1 = F + 1 by omega]
              rw [← hF] at hrec
              simp [IsF, hq, hr]
              rw [hrec]
              by_cases hcb : (ErrV.plain i m t).goEq c.Err = true
              · have hxy := goEq_uw h (.plain i m t) c.Err (.plain i m t) y f g' hcb
                  (uw_noncerr h f _ (by intro r' hr'; cases hr')) hy'
                simp [hcb, hxy]
              · simp only [Bool.not_eq_true] at hcb
                simp [hcb]
        | cerrNil => exact absurd (uw_cerrNil h g y hy) hyn
        | instNil =>
          have hyb : y = .instNil := by
            cases g <;> simp [unwrapAllF] at hy <;> exact hy.symm
          subst hyb; simp [IsF, hq]
        | plain i' m' t' =>
          have hyb : y = .plain i' m' t' := by
            cases g <;> simp [unwrapAllF] at hy <;> exact hy.symm
          subst hyb; simp [IsF, hq]
        | panicV m' =>
          have hyb : y = .panicV m' := by
            cases g <;> simp [unwrapAllF] at hy <;> exact hy.symm
          subst hyb; simp [IsF, hq]
      | panicV m =>
        have hxe : x = .panicV m := by
          cases f <;> simp [unwrapAllF] at hx <;> exact hx.symm
        subst hxe
        cases b with
        | cerr r =>
          cases g with
          | zero => simp [unwrapAllF] at hy
          | succ g' =>
            cases hr : h[r]? with
            | none => simp [unwrapAllF, hr] at hy
            | some c =>
              have hy' : unwrapAllF h g' c.Err = some y := by
                simpa [unwrapAllF, hr] using hy
              have hrec := ih f g' (.panicV m) c.Err (.panicV m) y (by omega)
                (uw_noncerr h f _ (by intro r' hr'; cases hr')) hxn hy' hyn
              obtain ⟨F, hF⟩ : ∃ F, F = f + g' + 1 := ⟨_, rfl⟩
              rw [show f + (g' + 1) + 1 = F + 1 by omega]
              rw [← hF] at hrec
              simp [IsF, hq, hr]
              rw [hrec]
              by_cases hcb : (ErrV.panicV m).goEq c.Err = true
              · have hxy := goEq_uw h (.panicV m) c.Err (.panicV m) y f g' hcb
                  (uw_noncerr h f _ (by intro r' hr'; cases hr')) hy'
                simp [hcb, hxy]
              · simp only [Bool.not_eq_true] at hcb
                simp [hcb]
        | cerrNil => exact absurd (uw_cerrNil h g y hy) hyn
        | instNil =>
          have hyb : y = .instNil := by
            cases g <;> simp [unwrapAllF] at hy <;> exact hy.symm
          subst hyb; simp [IsF, hq]
        | plain i' m' t' =>
          have hyb : y = .plain i' m' t' := by
            cases g <;> simp [unwrapAllF] at hy <;> exact hy.symm
          subst hyb; simp [IsF, hq]
        | panicV m' =>
          have hyb : y = .panicV m' := by
            cases g <;> simp [unwrapAllF] at hy <;> exact hy.symm
          subst hyb; simp [IsF, hq]


/-- Claim C3: for a value that is already an annotated error (a live
`*CommonError` `r`), `Wrap` returns it unchanged, so
`Wrap (Wrap e s1) s2` is identity-equal (same pointer, same untouched
state, hence same captured stack) to `Wrap e s1` for any skip values. -/
theorem C3_wrap_idempotent (md s1 s2 : Nat) (cs1 cs2 : List Nat) (r : Nat) (st : St) :
    Wrap md s1 cs1 (.errVal (.cerr r)) st = (some r, st)
    ∧ Wrap md s2 cs2 (.errVal (CPtr.toErrV (Wrap md s1 cs1 (.errVal (.cerr r)) st).1))
        (Wrap md s1 cs1 (.errVal (.cerr r)) st).2
      = Wrap md s1 cs1 (.errVal (.cerr r)) st :=
  ⟨rfl, rfl⟩

/-- Claim C4: `Unwrap` returns an annotated error's underlying value,
returns a plain error unchanged, converts a non-error (the nil
interface) via default formatting, and for every error value `e`
(a nested annotated error included) `Unwrap (New e)` is identity-equal
to `e`. -/
theorem C4_unwrap_cases (md : Nat) (cs : List Nat) (st : St) :
    (∀ (r : Nat) (c : CommonError), st.heap[r]? = some c →
        Unwrap (.cerr r) st = some (c.Err, st))
    ∧ (∀ (i : Nat) (m t : String), Unwrap (.plain i m t) st = some (.plain i m t, st))
    ∧ (∀ m : String, Unwrap (.panicV m) st = some (.panicV m, st))
    ∧ Unwrap .instNil st = some ((st.freshErr "<nil>").1, (st.freshErr "<nil>").2)
    ∧ (∀ e : ErrV,
        Unwrap (.cerr (New md cs (.errVal e) st).1) (New md cs (.errVal e) st).2
          = some (e, (New md cs (.errVal e) st).2)) := by
  refine ⟨?_, ?_, ?_, rfl, ?_⟩
  · intro r c h; simp [Unwrap, h]
  · intro i m t; simp [Unwrap]
  · intro m; simp [Unwrap]
  · intro e
    simp [Unwrap, New, St.alloc, List.getElem?_concat_length]

theorem C4_unwrap_cases_witness :
    Unwrap (.cerr 0) ⟨[⟨.plain 7 "x" "*errs.T", [], none, ""⟩], 0⟩
      = some (.plain 7 "x" "*errs.T", ⟨[⟨.plain 7 "x" "*errs.T", [], none, ""⟩], 0⟩) :=
  (C4_unwrap_cases 0 [] ⟨[⟨.plain 7 "x" "*errs.T", [], none, ""⟩], 0⟩).1 0
    ⟨.plain 7 "x" "*errs.T", [], none, ""⟩ rfl

/-- Claim C9: `TypeName` returns the sentinel `"panic"` exactly for an
underlying value that originated from a recovered panic
(an `uncaughtPanic` value), and the runtime type identifier of the
underlying error for every normally constructed annotated error. -/
theorem C9_typename (md : Nat) (cs : List Nat) (st : St) :
    (∀ (m : String) (c : CommonError), c.Err = .panicV m → c.typeName = some "panic")
    ∧ (∀ (i : Nat) (m t : String) (c : CommonError), c.Err = .plain i m t →
        c.typeName = some t)
    ∧ (∀ m : String,
        ((New md cs (.errVal (.panicV m)) st).2.heap[(New md cs (.errVal (.panicV m)) st).1]?).bind
          CommonError.typeName = some "panic")
    ∧ (∀ (i : Nat) (m t : String),
        ((New md cs (.errVal (.plain i m t)) st).2.heap[(New md cs (.errVal (.plain i m t)) st).1]?).bind
          CommonError.typeName = some t) := by
  refine ⟨?_, ?_, ?_, ?_⟩
  · intro m c h; simp [CommonError.typeName, h]
  · intro i m t c h; simp [CommonError.typeName, h]
  · intro m
    simp [New, St.alloc, List.getElem?_concat_length, CommonError.typeName]
  · intro i m t
    simp [New, St.alloc, List.getElem?_concat_length, CommonError.typeName]

theorem C9_typename_witness :
    CommonError.typeName ⟨.panicV "boom", [], none, ""⟩ = some "panic"
    ∧ CommonError.typeName ⟨.plain 2 "msg" "*os.PathError", [3], none, "p"⟩
        = some "*os.PathError" :=
  ⟨(C9_typename 0 [] ⟨[], 0⟩).1 "boom" _ rfl,
   (C9_typename 0 [] ⟨[], 0⟩).2.1 2 "msg" "*os.PathError" _ rfl⟩

/-- Claim C1: for every non-error value `v`, `New v` builds an error
whose `Error()` is the default-formatted text of `v` (`s` for a value
rendering as `s`, `"<nil>"` for nil) with an empty prefix; in particular
`New "boom"` renders `"boom"`, and its `ErrorStack()` is exactly
`"boom\n"` followed by the concatenation of at least one non-empty frame
block. -/
theorem C1_new_default_format (md fuel : Nat) (cs : List Nat) (st : St)
    (res : Nat → StackFrame) (hcs : cs ≠ []) (hmd : 0 < md) :
    (∀ s : String,
        ((New md cs (.other s) st).2.heap[(New md cs (.other s) st).1]?).bind
          (CommonError.errorStr (New md cs (.other s) st).2.heap fuel) = some s)
    ∧ (((New md cs .goNil st).2.heap[(New md cs .goNil st).1]?).bind
          (CommonError.errorStr (New md cs .goNil st).2.heap fuel) = some "<nil>")
    ∧ (∀ s : String,
        ((New md cs (.other s) st).2.heap[(New md cs (.other s) st).1]?).map
          CommonError.pfx = some "")
    ∧ (∃ (c : CommonError) (blocks : List String),
        (New md cs (.other "boom") st).2.heap[(New md cs (.other "boom") st).1]? = some c
        ∧ (c.errorStack (New md cs (.other "boom") st).2.heap fuel res).map Prod.fst
            = some ("boom\n" ++ String.join blocks)
        ∧ blocks ≠ [] ∧ (∀ b ∈ blocks, b ≠ "")) := by
  refine ⟨?_, ?_, ?_, ?_⟩
  · intro s
    simp [New, St.freshErr, St.alloc, List.getElem?_concat_length,
      CommonError.errorStr, errMsgF]
  · simp [New, St.freshErr, St.alloc, List.getElem?_concat_length,
      CommonError.errorStr, errMsgF]
  · intro s
    simp [New, St.freshErr, St.alloc, List.getElem?_concat_length]
  · refine ⟨⟨.plain st.nextId "boom" "*errors.errorString", cs.take md, none, ""⟩,
      ((cs.take md).map res).map StackFrame.render, ?_, ?_, ?_, ?_⟩
    · simp [New, St.freshErr, St.alloc, List.getElem?_concat_length]
    · simp [New, St.freshErr, St.alloc, CommonError.errorStack,
        CommonError.errorStr, errMsgF, CommonError.stackStr, CommonError.stackFrames]
    · intro hB
      simp [List.map_eq_nil_iff] at hB
      rcases hB with h | h
      · exact absurd h (by omega)
      · exact hcs h
    · intro b hb
      rcases List.mem_map.mp hb with ⟨fr, _, rfl⟩
      exact render_ne_empty fr

theorem C1_new_default_format_witness :
    ((New 1 [7] (.other "boom") ⟨[], 0⟩).2.heap[(New 1 [7] (.other "boom") ⟨[], 0⟩).1]?).bind
      (CommonError.errorStr (New 1 [7] (.other "boom") ⟨[], 0⟩).2.heap 0) = some "boom" :=
  (C1_new_default_format 1 0 [7] ⟨[], 0⟩ (fun p => ⟨"main.go", 3, "main", "main", p⟩)
    (by decide) (by decide)).1 "boom"


/-- `WrapPrefix` on a live annotated error mutates that cell in place:
same pointer back, prefix set or composed. -/
theorem wrapPrefix_cerr (md skip : Nat) (cs : List Nat) (p : String) (r : Nat)
    (st : St) (c : CommonError) (h : st.heap[r]? = some c) :
    WrapPrefix md skip cs (.errVal (.cerr r)) p st
      = some (some r, st.set r (if c.pfx ≠ "" then { c with pfx := p ++ ": " ++ c.pfx }
                                else { c with pfx := p })) := by
  simp [WrapPrefix, Wrap, h]

/-- `WrapPrefix` on a plain error allocates a new cell carrying the
prefix. -/
theorem wrapPrefix_plain (md skip : Nat) (cs : List Nat) (p : String) (i : Nat)
    (m t : String) (st : St) :
    WrapPrefix md skip cs (.errVal (.plain i m t)) p st
      = some (some st.heap.length,
          ⟨st.heap ++ [⟨.plain i m t, (cs.drop skip).take md, none, p⟩], st.nextId⟩) := by
  simp [WrapPrefix, Wrap, St.alloc, St.set, List.getElem?_concat_length, concat_set_last]

/-- Claim C10: on an input that is already an annotated error,
`WrapPrefix` returns the identical pointer and mutates that cell's
prefix in place (composing with an existing prefix), leaving the cell's
underlying error, captured stack and resolved frames, and every other
heap cell, unchanged — so the original error's rendered message changes
rather than a fresh error being produced. -/
theorem C10_wrapprefix_mutates (md skip : Nat) (cs : List Nat) (p : String)
    (r : Nat) (st : St) (c : CommonError) (h : st.heap[r]? = some c) (hp : p ≠ "") :
    WrapPrefix md skip cs (.errVal (.cerr r)) p st
      = some (some r, st.set r (if c.pfx ≠ "" then { c with pfx := p ++ ": " ++ c.pfx }
                                else { c with pfx := p }))
    ∧ (if c.pfx ≠ "" then { c with pfx := p ++ ": " ++ c.pfx }
       else { c with pfx := p }).Err = c.Err
    ∧ (if c.pfx ≠ "" then { c with pfx := p ++ ": " ++ c.pfx }
       else { c with pfx := p }).stack = c.stack
    ∧ (if c.pfx ≠ "" then { c with pfx := p ++ ": " ++ c.pfx }
       else { c with pfx := p }).frames = c.frames
    ∧ (if c.pfx ≠ "" then { c with pfx := p ++ ": " ++ c.pfx }
       else { c with pfx := p }).pfx ≠ c.pfx
    ∧ (∀ c' : CommonError, (st.set r c').heap[r]? = some c')
    ∧ (∀ (c' : CommonError) (j : Nat), j ≠ r → (st.set r c').heap[j]? = st.heap[j]?) := by
  have hr : r < st.heap.length := by
    by_contra hge
    rw [List.getElem?_eq_none (by omega)] at h
    exact Option.noConfusion h
  refine ⟨wrapPrefix_cerr md skip cs p r st c h, ?_, ?_, ?_, ?_, ?_, ?_⟩
  · by_cases hc : c.pfx = "" <;> simp [hc]
  · by_cases hc : c.pfx = "" <;> simp [hc]
  · by_cases hc : c.pfx = "" <;> simp [hc]
  · by_cases hc : c.pfx = ""
    · simp [hc, hp]
    · simp only [hc, ne_eq, not_false_iff, if_true]
      intro heq
      have hlen := congrArg String.length heq
      have h2 : (": ").length = 2 := rfl
      simp [String.length_append, h2] at hlen
  · intro c'
    rw [St.set]
    simp only
    rw [List.getElem?_set_self', List.getElem?_eq_getElem hr]
    rfl
  · intro c' j hj
    rw [St.set]
    simp only
    exact List.getElem?_set_ne (fun hh => hj hh.symm)

theorem C10_wrapprefix_mutates_witness :
    WrapPrefix 3 0 [9] (.errVal (.cerr 0)) "ctx"
        ⟨[⟨.plain 1 "m" "t", [4], none, "old"⟩], 2⟩
      = some (some 0, ⟨[⟨.plain 1 "m" "t", [4], none, "ctx: old"⟩], 2⟩) := by
  have hh := (C10_wrapprefix_mutates 3 0 [9] "ctx" 0
      ⟨[⟨.plain 1 "m" "t", [4], none, "old"⟩], 2⟩
      ⟨.plain 1 "m" "t", [4], none, "old"⟩ rfl (by decide)).1
  simpa [St.set] using hh

/-- Claim C6: `WrapPrefix` composes prefixes in front with a `": "`
separator (joined before an existing prefix, set directly otherwise),
`Error()` renders `prefix ++ ": " ++ message`, and wrapping with "A"
then "B" yields a message that is exactly `"B: A: "` followed by the
underlying message. -/
theorem C6_wrapprefix_compose (md fuel : Nat) (cs1 cs2 : List Nat) (st : St)
    (i : Nat) (m t : String) :
    (∀ (skip : Nat) (cs : List Nat) (p : String) (r : Nat) (st' : St) (c : CommonError),
        st'.heap[r]? = some c → c.pfx ≠ "" →
        WrapPrefix md skip cs (.errVal (.cerr r)) p st'
          = some (some r, st'.set r { c with pfx := p ++ ": " ++ c.pfx }))
    ∧ (∀ (skip : Nat) (cs : List Nat) (p : String) (r : Nat) (st' : St) (c : CommonError),
        st'.heap[r]? = some c → c.pfx = "" →
        WrapPrefix md skip cs (.errVal (.cerr r)) p st'
          = some (some r, st'.set r { c with pfx := p }))
    ∧ (∀ (h : List CommonError) (c : CommonError) (msg : String),
        errMsgF h fuel c.Err = some msg → c.pfx ≠ "" →
        c.errorStr h fuel = some (c.pfx ++ ": " ++ msg))
    ∧ WrapPrefix md 0 cs1 (.errVal (.plain i m t)) "A" st
        = some (some st.heap.length,
            ⟨st.heap ++ [⟨.plain i m t, cs1.take md, none, "A"⟩], st.nextId⟩)
    ∧ WrapPrefix md 0 cs2 (.errVal (.cerr st.heap.length)) "B"
          ⟨st.heap ++ [⟨.plain i m t, cs1.take md, none, "A"⟩], st.nextId⟩
        = some (some st.heap.length,
            ⟨st.heap ++ [⟨.plain i m t, cs1.take md, none, "B: A"⟩], st.nextId⟩)
    ∧ ((st.heap ++ [⟨.plain i m t, cs1.take md, none, "B: A"⟩])[st.heap.length]?).bind
        (CommonError.errorStr (st.heap ++ [⟨.plain i m t, cs1.take md, none, "B: A"⟩]) fuel)
      = some ("B: A: " ++ m) := by
  refine ⟨?_, ?_, ?_, ?_, ?_, ?_⟩
  · intro skip cs p r st' c hc hpfx
    rw [wrapPrefix_cerr md skip cs p r st' c hc]
    simp [hpfx]
  · intro skip cs p r st' c hc hpfx
    rw [wrapPrefix_cerr md skip cs p r st' c hc]
    simp [hpfx]
  · intro h c msg hmsg hpfx
    simp [CommonError.errorStr, hmsg, hpfx]
  · have := wrapPrefix_plain md 0 cs1 "A" i m t st
    simpa using this
  · have := wrapPrefix_cerr md 0 cs2 "B" st.heap.length
      ⟨st.heap ++ [⟨.plain i m t, cs1.take md, none, "A"⟩], st.nextId⟩
      ⟨.plain i m t, cs1.take md, none, "A"⟩ (List.getElem?_concat_length _ _)
    rw [this]
    simp [St.set, concat_set_last]
  · rw [List.getElem?_concat_length]
    simp [CommonError.errorStr, errMsgF]

theorem C6_wrapprefix_compose_witness :
    WrapPrefix 2 0 [] (.errVal (.cerr 0)) "B"
        ⟨[⟨.plain 0 "mm" "tt", [], none, "A"⟩], 1⟩
      = some (some 0, St.set ⟨[⟨.plain 0 "mm" "tt", [], none, "A"⟩], 1⟩ 0
          ⟨.plain 0 "mm" "tt", [], none, "B: A"⟩) :=
  (C6_wrapprefix_compose 2 0 [] [] ⟨[], 0⟩ 0 "x" "y").1 0 [] "B" 0
    ⟨[⟨.plain 0 "mm" "tt", [], none, "A"⟩], 1⟩
    ⟨.plain 0 "mm" "tt", [], none, "A"⟩ rfl (by decide)

/-- Claim C8: `Errorf` is exactly formatting the message with the given
format and arguments and wrapping the resulting error with skip = 1; in
particular `Errorf "failed at step %d" 3` renders
`"failed at step 3"`. -/
theorem C8_errorf (md fuel : Nat) (cs : List Nat) (st : St) (f : String)
    (as : List FmtArg) :
    Errorf md cs f as st
      = Wrap md 1 cs (.errVal (fmtErrorf f as st).1) (fmtErrorf f as st).2
    ∧ (Errorf md cs "failed at step %d" [.intA 3] st).1 = some st.heap.length
    ∧ ((Errorf md cs "failed at step %d" [.intA 3] st).2.heap[st.heap.length]?).bind
        (CommonError.errorStr (Errorf md cs "failed at step %d" [.intA 3] st).2.heap fuel)
      = some "failed at step 3" := by
  have hmsg : fmtSprintf "failed at step %d" [.intA 3] = "failed at step 3" := rfl
  refine ⟨rfl, ?_, ?_⟩
  · simp [Errorf, fmtErrorf, St.freshErr, Wrap, St.alloc]
  · simp [Errorf, fmtErrorf, St.freshErr, Wrap, St.alloc,
      List.getElem?_concat_length, CommonError.errorStr, errMsgF, hmsg]

/-- Claim C7: the configured maximum stack depth defaults to 50; a
constructed error stores the captured addresses (at most `md` of them)
with unresolved frames; the first `StackFrames` call resolves exactly
one frame per captured address, caches the result, and leaves the
captured addresses unchanged; a second call returns the identical cached
sequence and cell. -/
theorem C7_stackframes_cached (md : Nat) (cs : List Nat) (v : GoVal) (st : St)
    (res : Nat → StackFrame) :
    MaxStackDepth = 50
    ∧ (∀ c : CommonError,
        (New md cs v st).2.heap[(New md cs v st).1]? = some c →
        c.frames = none ∧ c.stack = cs.take md ∧ c.stack.length ≤ md)
    ∧ (∀ c : CommonError, c.frames = none →
        (c.stackFrames res).1.length = c.stack.length
        ∧ (c.stackFrames res).2.stack = c.stack
        ∧ (c.stackFrames res).2.Err = c.Err
        ∧ (c.stackFrames res).2.frames = some (c.stackFrames res).1
        ∧ (c.stackFrames res).2.stackFrames res = c.stackFrames res) := by
  refine ⟨rfl, ?_, ?_⟩
  · intro c hc
    cases v <;>
      · simp [New, St.freshErr, St.alloc, List.getElem?_concat_length] at hc
        subst hc
        refine ⟨rfl, rfl, ?_⟩
        simp [List.length_take]
  · intro c hc
    simp [CommonError.stackFrames, hc]

theorem C7_stackframes_cached_witness :
    (CommonError.stackFrames (fun p => ⟨"a.go", 1, "f", "pk", p⟩)
        ⟨.plain 0 "m" "t", [5, 6], none, ""⟩).1.length = 2
    ∧ (CommonError.stackFrames (fun p => ⟨"a.go", 1, "f", "pk", p⟩)
        ⟨.plain 0 "m" "t", [5, 6], none, ""⟩).2.stackFrames
          (fun p => ⟨"a.go", 1, "f", "pk", p⟩)
      = CommonError.stackFrames (fun p => ⟨"a.go", 1, "f", "pk", p⟩)
          ⟨.plain 0 "m" "t", [5, 6], none, ""⟩ := by
  have hh := (C7_stackframes_cached 50 [] .goNil ⟨[], 0⟩
      (fun p => ⟨"a.go", 1, "f", "pk", p⟩)).2.2
      ⟨.plain 0 "m" "t", [5, 6], none, ""⟩ rfl
  exact ⟨hh.1, hh.2.2.2.2⟩


/-- One unfolding step of `unwrapAllF` on a live pointer. -/
theorem uw_step (h : List CommonError) (m r : Nat) :
    unwrapAllF h (m + 1) (.cerr r)
      = (match h[r]? with
         | some c => unwrapAllF h m c.Err
         | none => none) := rfl

/-- Claim C5: `Is` is identity equality after unwrapping: with enough
fuel it returns true exactly when the two values are the same object
(Go `==`) or their fully-unwrapped underlying values are the same
object; consequently `Is x x` holds for every error value, and
`Is (New e1) (New e2)` is false for distinct error instances even with
textually identical messages. -/
theorem C5_is_identity :
    (∀ (h : List CommonError) (f g : Nat) (e b x y : ErrV),
        unwrapAllF h f e = some x → x ≠ .cerrNil →
        unwrapAllF h g b = some y → y ≠ .cerrNil →
        IsF h (f + g + 1) e b = some (e.goEq b || x.goEq y))
    ∧ (∀ (h : List CommonError) (fuel : Nat) (x : ErrV),
        IsF h (fuel + 1) x x = some true)
    ∧ (∀ (md : Nat) (cs1 cs2 : List Nat) (st : St) (i1 i2 : Nat) (m t1 t2 : String),
        i1 ≠ i2 →
        IsF (New md cs2 (.errVal (.plain i2 m t2))
              (New md cs1 (.errVal (.plain i1 m t1)) st).2).2.heap 3
          (.cerr (New md cs1 (.errVal (.plain i1 m t1)) st).1)
          (.cerr (New md cs2 (.errVal (.plain i2 m t2))
              (New md cs1 (.errVal (.plain i1 m t1)) st).2).1)
          = some false) := by
  refine ⟨?_, ?_, ?_⟩
  · intro h f g e b x y hx hxn hy hyn
    exact isF_char h (f + g) f g e b x y (Nat.le_refl _) hx hxn hy hyn
  · intro h fuel x
    simp [IsF, ErrV.goEq_refl]
  · intro md cs1 cs2 st i1 i2 m t1 t2 hii
    have h1 : ((st.heap ++ [⟨.plain i1 m t1, cs1.take md, none, ""⟩])
        ++ [⟨.plain i2 m t2, cs2.take md, none, ""⟩])[st.heap.length]?
        = some ⟨.plain i1 m t1, cs1.take md, none, ""⟩ := by
      rw [getElem?_concat_lt _ _ _ (by simp)]
      exact List.getElem?_concat_length _ _
    have h2 : ((st.heap ++ [⟨.plain i1 m t1, cs1.take md, none, ""⟩])
        ++ [⟨.plain i2 m t2, cs2.take md, none, ""⟩])[st.heap.length + 1]?
        = some ⟨.plain i2 m t2, cs2.take md, none, ""⟩ := by
      have hlen : (st.heap ++ [(⟨.plain i1 m t1, cs1.take md, none, ""⟩ : CommonError)]).length
          = st.heap.length + 1 := by simp
      rw [← hlen]
      exact List.getElem?_concat_length _ _
    have hx : unwrapAllF ((st.heap ++ [⟨.plain i1 m t1, cs1.take md, none, ""⟩])
        ++ [⟨.plain i2 m t2, cs2.take md, none, ""⟩]) 1 (.cerr st.heap.length)
        = some (.plain i1 m t1) := by
      rw [uw_step, h1]; rfl
    have hy : unwrapAllF ((st.heap ++ [⟨.plain i1 m t1, cs1.take md, none, ""⟩])
        ++ [⟨.plain i2 m t2, cs2.take md, none, ""⟩]) 1 (.cerr (st.heap.length + 1))
        = some (.plain i2 m t2) := by
      rw [uw_step, h2]; rfl
    have hchar := isF_char ((st.heap ++ [⟨.plain i1 m t1, cs1.take md, none, ""⟩])
        ++ [⟨.plain i2 m t2, cs2.take md, none, ""⟩]) 2 1 1
        (.cerr st.heap.length) (.cerr (st.heap.length + 1))
        (.plain i1 m t1) (.plain i2 m t2) (by omega) hx (by simp) hy (by simp)
    have hres : ((ErrV.cerr st.heap.length).goEq (.cerr (st.heap.length + 1))
        || (ErrV.plain i1 m t1).goEq (.plain i2 m t2)) = false := by
      simp [ErrV.goEq, hii]
    rw [show (1 : Nat) + 1 + 1 = 3 from rfl] at hchar
    rw [hres] at hchar
    simp only [New, St.freshErr, St.alloc, List.length_append, List.length_singleton]
    exact hchar

theorem C5_is_identity_witness :
    IsF [⟨.plain 0 "dup" "*errors.errorString", [], none, ""⟩,
         ⟨.plain 1 "dup" "*errors.errorString", [], none, ""⟩] 3
        (.cerr 0) (.cerr 1) = some false
    ∧ IsF [] 1 (.plain 0 "a" "t") (.plain 0 "a" "t") = some true := by
  constructor
  · have hh := C5_is_identity.2.2 0 [] [] ⟨[], 0⟩ 0 1 "dup"
      "*errors.errorString" "*errors.errorString" (by decide)
    simpa [New, St.freshErr, St.alloc] using hh
  · exact C5_is_identity.2.1 [] 0 (.plain 0 "a" "t")


/-- `Wrap` on anything other than a typed-nil `*CommonError` (whose
pointers are in range) returns a live pointer into the resulting heap. -/
theorem wrap_live (md skip : Nat) (cs : List Nat) (v : GoVal) (st : St)
    (hv : v ≠ .errVal .cerrNil)
    (hval : ∀ r', v = .errVal (.cerr r') → r' < st.heap.length) :
    ∃ r, (Wrap md skip cs v st).1 = some r
      ∧ r < (Wrap md skip cs v st).2.heap.length := by
  cases v with
  | goNil =>
    exact ⟨st.heap.length, by simp [Wrap, St.freshErr, St.alloc]⟩
  | other s =>
    exact ⟨st.heap.length, by simp [Wrap, St.freshErr, St.alloc]⟩
  | errVal ev =>
    cases ev with
    | cerr r => exact ⟨r, rfl, hval r rfl⟩
    | cerrNil => exact absurd rfl hv
    | instNil => exact ⟨st.heap.length, by simp [Wrap, St.alloc]⟩
    | plain i m' t => exact ⟨st.heap.length, by simp [Wrap, St.alloc]⟩
    | panicV m' => exact ⟨st.heap.length, by simp [Wrap, St.alloc]⟩

/-- Claim C2 counterexample: `Unwrap` is not total — on a typed-nil
`*CommonError` argument (a nil-typed error value) the source dereferences
`e.Err` through the nil pointer, a run-time panic, modelled as `none`. -/
theorem C2_total_cex : Unwrap .cerrNil ⟨[], 0⟩ = none := rfl

/-- Claim C2 (amended): every public operation returns a result except
where a nil value forces a nil dereference: `New`, `Wrap` and `Errorf`
never panic on any input, nil included (`Wrap` passes a typed-nil
`*CommonError` through as the nil pointer); `Unwrap` and `WrapPrefix`
return a result on every input except a typed-nil `*CommonError`
argument, where they panic; `Is` returns a result whenever both unwrap
chains avoid a typed-nil `*CommonError`, still succeeds on two
typed-nils (the identity check fires first) and panics when that check
fails on a typed-nil argument; `Error`/`ErrorStack` return results
whenever the underlying message chain is defined and `Error` panics on
a nil-interface or typed-nil `*CommonError` underlying error;
`TypeName` returns a result for every underlying error other than the
nil interface — on a typed-nil `*CommonError` it returns
`"*errors.CommonError"`, no panic; `StackFrames` always caches and
returns frames. -/
theorem C2_total_amended :
    (∀ (md : Nat) (cs : List Nat) (v : GoVal) (st : St),
        (New md cs v st).1 < (New md cs v st).2.heap.length)
    ∧ (∀ (md skip : Nat) (cs : List Nat) (st : St),
        Wrap md skip cs (.errVal .cerrNil) st = (none, st))
    ∧ (∀ (md skip : Nat) (cs : List Nat) (v : GoVal) (st : St),
        v ≠ .errVal .cerrNil →
        (∀ r', v = .errVal (.cerr r') → r' < st.heap.length) →
        ∃ r, (Wrap md skip cs v st).1 = some r
          ∧ r < (Wrap md skip cs v st).2.heap.length)
    ∧ (∀ (md skip : Nat) (cs : List Nat) (v : GoVal) (p : String) (st : St),
        v ≠ .errVal .cerrNil →
        (∀ r', v = .errVal (.cerr r') → r' < st.heap.length) →
        (WrapPrefix md skip cs v p st).isSome = true)
    ∧ (∀ (e : ErrV) (st : St), e ≠ .cerrNil →
        (∀ r, e = .cerr r → r < st.heap.length) →
        (Unwrap e st).isSome = true)
    ∧ (∀ (md : Nat) (cs : List Nat) (f : String) (as : List FmtArg) (st : St),
        (Errorf md cs f as st).1 = some st.heap.length
        ∧ st.heap.length < (Errorf md cs f as st).2.heap.length)
    ∧ (∀ (h : List CommonError) (f g : Nat) (e b x y : ErrV),
        unwrapAllF h f e = some x → x ≠ .cerrNil →
        unwrapAllF h g b = some y → y ≠ .cerrNil →
        (IsF h (f + g + 1) e b).isSome = true)
    ∧ (∀ (h : List CommonError) (fuel : Nat) (c : CommonError) (msg : String),
        errMsgF h fuel c.Err = some msg →
        (c.errorStr h fuel).isSome = true)
    ∧ (∀ (h : List CommonError) (fuel : Nat) (res : Nat → StackFrame)
        (c : CommonError) (msg : String),
        errMsgF h fuel c.Err = some msg →
        (c.errorStack h fuel res).isSome = true)
    ∧ (∀ c : CommonError, c.Err ≠ .instNil → c.typeName.isSome = true)
    ∧ (∀ (res : Nat → StackFrame) (c : CommonError),
        (c.stackFrames res).2.frames = some (c.stackFrames res).1)
    ∧ (∀ (md skip : Nat) (cs : List Nat) (p : String) (st : St),
        WrapPrefix md skip cs (.errVal .cerrNil) p st = none)
    ∧ (∀ c : CommonError, c.Err = .cerrNil →
        c.typeName = some "*errors.CommonError")
    ∧ (∀ (h : List CommonError) (fuel : Nat),
        IsF h (fuel + 1) .cerrNil .cerrNil = some true)
    ∧ (∀ (h : List CommonError) (fuel : Nat) (b : ErrV),
        ErrV.goEq .cerrNil b = false → IsF h (fuel + 1) .cerrNil b = none)
    ∧ (∀ (h : List CommonError) (fuel : Nat) (c : CommonError),
        c.Err = .cerrNil → c.errorStr h fuel = none)
    ∧ (∀ (h : List CommonError) (fuel : Nat) (c : CommonError),
        c.Err = .instNil → c.errorStr h fuel = none ∧ c.typeName = none) := by
  refine ⟨?_, ?_, ?_, ?_, ?_, ?_, ?_, ?_, ?_, ?_, ?_, ?_, ?_, ?_, ?_, ?_, ?_⟩
  · intro md cs v st
    cases v <;> simp [New, St.freshErr, St.alloc]
  · intro md skip cs st; rfl
  · intro md skip cs v st hv hval
    exact wrap_live md skip cs v st hv hval
  · intro md skip cs v p st hv hval
    obtain ⟨r, hr1, hr2⟩ := wrap_live md skip cs v st hv hval
    have hlook : ((Wrap md skip cs v st).2.heap[r]?).isSome = true := by
      rw [List.getElem?_eq_getElem hr2]; rfl
    obtain ⟨c, hc⟩ := Option.isSome_iff_exists.mp hlook
    simp [WrapPrefix, hr1, hc]
  · intro e st he hval
    cases e with
    | cerr r =>
      have hr : r < st.heap.length := hval r rfl
      have hlook : (st.heap[r]?).isSome = true := by
        rw [List.getElem?_eq_getElem hr]; rfl
      obtain ⟨c, hc⟩ := Option.isSome_iff_exists.mp hlook
      simp [Unwrap, hc]
    | cerrNil => exact absurd rfl he
    | instNil => rfl
    | plain i m t => rfl
    | panicV m => rfl
  · intro md cs f as st
    constructor
    · simp [Errorf, fmtErrorf, St.freshErr, Wrap, St.alloc]
    · simp [Errorf, fmtErrorf, St.freshErr, Wrap, St.alloc]
  · intro h f g e b x y hx hxn hy hyn
    rw [isF_char h (f + g) f g e b x y (Nat.le_refl _) hx hxn hy hyn]
    rfl
  · intro h fuel c msg hm
    simp [CommonError.errorStr, hm]
  · intro h fuel res c msg hm
    simp [CommonError.errorStack, CommonError.errorStr, hm]
  · intro c hne
    cases hE : c.Err <;> simp [CommonError.typeName, hE] <;> exact hne hE
  · intro res c
    cases hf : c.frames <;> simp [CommonError.stackFrames, hf]
  · intro md skip cs p st; rfl
  · intro c hc; simp [CommonError.typeName, hc]
  · intro h fuel; simp [IsF, ErrV.goEq]
  · intro h fuel b hq; simp [IsF, hq]
  · intro h fuel c hc
    simp [CommonError.errorStr, errMsgF, hc]
  · intro h fuel c hc
    constructor
    · simp [CommonError.errorStr, errMsgF, hc]
    · simp [CommonError.typeName, hc]

theorem C2_total_amended_witness :
    (Unwrap (.plain 4 "m" "t") ⟨[], 9⟩).isSome = true
    ∧ (WrapPrefix 2 0 [1] (.other "v") "p" ⟨[], 0⟩).isSome = true :=
  ⟨C2_total_amended.2.2.2.2.1 (.plain 4 "m" "t") ⟨[], 9⟩ (by decide)
      (fun r hr => by cases hr),
   C2_total_amended.2.2.2.1 2 0 [1] (.other "v") "p" ⟨[], 0⟩ (by decide)
      (fun r hr => by cases hr)⟩

end GoErrors
